/-
  Verification of the Adafruit-GFX-Library graphics core (C++14 port).

  Shallow embedding of the rasterization and pixel-sink code in
  src/Adafruit_GFX.cpp, src/Adafruit_SPITFT.cpp and the class header.
  Machine integers are modelled as Int/Nat; every place where the C++ code
  narrows a wider value into an int16_t (an assignment to an int16_t
  variable or passing an argument to an int16_t parameter) is wrapped with
  `i16`, matching two's-complement narrowing as implemented by the GCC/ARM
  toolchain this port targets.  Buffers are modelled as lists of bytes or
  as total functions from raw indices to stored values.
-/
import Mathlib

set_option maxRecDepth 10000

/-- Two's-complement narrowing to a signed 16-bit value. -/
def i16 (z : Int) : Int := (z + 32768) % 65536 - 32768

/-- Two's-complement narrowing to a signed 32-bit value. -/
def i32 (z : Int) : Int := (z + 2147483648) % 4294967296 - 2147483648

/-
  Adafruit_SPITFT::color565 (class header):
    return ((red & 0xF8) << 8) | ((green & 0xFC) << 3) | (blue >> 3);
  Channels are uint8_t, the result a uint16_t; all values fit, so Nat
  arithmetic models it exactly.
-/
def color565 (red green blue : Nat) : Nat :=
  ((red &&& 0xF8) <<< 8) ||| ((green &&& 0xFC) <<< 3) ||| (blue >>> 3)

/-
  Adafruit_SPITFT::writeColor (Adafruit_SPITFT.cpp lines 80-108).
  The bus traffic is modelled as a list of events: `write16 v` is one
  SPI_WRITE16(v) call, `transfer k v` is one _spi->transfer of a block of
  k 16-bit pixels whose stored (byte-swapped) value is v.
-/
inductive BusEvent
  | write16 (v : Nat)
  | transfer (pixels : Nat) (v : Nat)
deriving DecidableEq

/-- static constexpr uint32_t SPI_BLOCKSIZE { 32 }; (class header). -/
def SPI_BLOCKSIZE : Nat := 32

/-- uint16_t c = ((color & 0xff) << 8) | (color >> 8); (writeColor, default case). -/
def byteswap16 (color : Nat) : Nat := (((color &&& 0xff) <<< 8) ||| (color >>> 8)) % 65536

/--
  Adafruit_SPITFT::writeColor(color, len): switch on len with fallthrough
  cases 4..1 each issuing one SPI_WRITE16, and a default case that fills a
  32-entry buffer with the byte-swapped color, sends len / 32 full blocks,
  then one final transfer of the remaining len - (len / 32) * 32 pixels.
-/
def writeColor (color : Nat) (len : Nat) : List BusEvent :=
  match len with
  | 0 => []
  | 1 => [.write16 color]
  | 2 => [.write16 color, .write16 color]
  | 3 => [.write16 color, .write16 color, .write16 color]
  | 4 => [.write16 color, .write16 color, .write16 color, .write16 color]
  | _ =>
    let c := byteswap16 color
    let n := len / SPI_BLOCKSIZE
    List.replicate n (.transfer SPI_BLOCKSIZE c) ++ [.transfer (len - n * SPI_BLOCKSIZE) c]

/-- Number of 16-bit color values one bus event carries. -/
def eventPixels : BusEvent → Nat
  | .write16 _ => 1
  | .transfer k _ => k

/-- Total number of 16-bit color values issued by a sequence of bus events. -/
def busPixels (es : List BusEvent) : Nat := (es.map eventPixels).sum

/-- Every bulk block transfer in the event list carries at most m pixels. -/
def blocksWithin (es : List BusEvent) (m : Nat) : Bool :=
  es.all fun e =>
    match e with
    | .write16 _ => true
    | .transfer k _ => decide (k ≤ m)

/-
  Shared clipping body of Adafruit_SPITFT::writeFillRect (Adafruit_SPITFT.cpp
  lines 110-147) and Adafruit_SPITFT::fillRect (lines 211-250).  The two
  functions are textually identical except that fillRect brackets the final
  writeFillRectPreclipped call with startWrite()/endWrite().  Returns the
  (x, y, w, h) arguments passed to writeFillRectPreclipped, or none when a
  guard rejects the rectangle before any write.  W and H are the current
  _width/_height of the display.  All of x, y, w, h are int16_t in the
  source; x2 and y2 are int32_t, so they are computed exactly; assignments
  back into the int16_t variables are narrowed with i16.
-/
/-- Innermost part of the shared clip body: the code after both extents
    have been normalized and the `x < _width` test has passed.  The int32_t
    locals x2 = x + w - 1 and y2 = y + h - 1 are exact; the clipped left
    and top edges replace x and y by 0, and each clipped width narrows back
    into the int16_t variable. -/
def clipStep3 (W H x y w h : Int) : Option (Int × Int × Int × Int) :=
  if y < H then -- Not off bottom
    if 0 ≤ x + w - 1 then -- Not off left
      if 0 ≤ y + h - 1 then -- Not off top
        -- Rectangle partly or fully overlaps screen:
        -- if (x < 0)  { x = 0; w = x2 + 1; }        Clip left
        -- if (y < 0)  { y = 0; h = y2 + 1; }        Clip top
        -- if (x2 >= _width)  { w = _width - x; }    Clip right
        -- if (y2 >= _height) { h = _height - y; }   Clip bottom
        some (if x < 0 then 0 else x,
              if y < 0 then 0 else y,
              if W ≤ x + w - 1 then i16 (W - if x < 0 then 0 else x)
                else if x < 0 then i16 (x + w - 1 + 1) else w,
              if H ≤ y + h - 1 then i16 (H - if y < 0 then 0 else y)
                else if y < 0 then i16 (y + h - 1 + 1) else h)
      else none
    else none
  else none

/-- Middle part of the shared clip body: `x < _width` test, then
    normalization of a negative height (y += h + 1; h = -h). -/
def clipStep2 (W H x y w h : Int) : Option (Int × Int × Int × Int) :=
  if x < W then -- Not off right
    clipStep3 W H x (if h < 0 then i16 (y + h + 1) else y) w (if h < 0 then i16 (-h) else h)
  else none

/-- Entry of the shared clip body: `if (w && h)` test, then normalization
    of a negative width (x += w + 1; w = -w). -/
def clipFillRect (W H x y w h : Int) : Option (Int × Int × Int × Int) :=
  if w = 0 ∨ h = 0 then none
  else
    clipStep2 W H (if w < 0 then i16 (x + w + 1) else x) y (if w < 0 then i16 (-w) else w) h

/--
  Adafruit_SPITFT::fillRect opens its transaction (startWrite, line 242)
  only in the innermost branch, immediately around writeFillRectPreclipped;
  every clip-reject path returns without it.
-/
def fillRectOpensTransaction (W H x y w h : Int) : Bool :=
  (clipFillRect W H x y w h).isSome

/--
  The set of pixels written by Adafruit_SPITFT::fillRect / writeFillRect:
  writeFillRectPreclipped(x, y, w, h, color) sets the address window to the
  rectangle [x, x+w) × [y, y+h) and emits w*h color values filling exactly
  that window (Adafruit_SPITFT.cpp lines 195-198).
-/
def fillRectWrites (W H x y w h px py : Int) : Bool :=
  match clipFillRect W H x y w h with
  | none => false
  | some (a, b, cw, ch) =>
    decide (a ≤ px) && decide (px < a + cw) && decide (b ≤ py) && decide (py < b + ch)

/-- Normalized origin of a signed-extent axis: spec section 4.2, "Negative-extent
    inputs are normalized to positive by shifting the origin backward first." -/
def normPos (x w : Int) : Int := if w < 0 then x + w + 1 else x

/-- Normalized (positive) extent of a signed-extent axis. -/
def normExt (w : Int) : Int := if w < 0 then -w else w

/-- Spec-side geometric meaning of a fillRect request: the requested
    rectangle, after normalizing negative extents, contains (px, py). -/
def specRect (x y w h px py : Int) : Prop :=
  normPos x w ≤ px ∧ px < normPos x w + normExt w ∧
  normPos y h ≤ py ∧ py < normPos y h + normExt h

instance (x y w h px py : Int) : Decidable (specRect x y w h px py) := by
  unfold specRect; infer_instance

/-- Spec-side visible area [0, W) × [0, H). -/
def specScreen (W H px py : Int) : Prop :=
  0 ≤ px ∧ px < W ∧ 0 ≤ py ∧ py < H

instance (W H px py : Int) : Decidable (specScreen W H px py) := by
  unfold specScreen; infer_instance

/-- The requested rectangle overlaps the visible area. -/
def rectOverlaps (W H x y w h : Int) : Prop :=
  ∃ px py : Int, specRect x y w h px py ∧ specScreen W H px py


/-
  Adafruit_GFX::writeLine (Adafruit_GFX.cpp lines 49-85): integer Bresenham
  with axis swap for steep slopes.  Modelled as the list of (x, y)
  arguments passed to writePixel, in call order.  The canonicalization
  (both swaps) is split into canonLine; the plotting loop into bresLoop.
  The C loop `for (; x0 <= x1; x0++)` runs x1 - x0 + 1 times (the model's
  fuel); if x1 = 32767 the int16_t increment would wrap and the C loop
  would not terminate, which the fuel-indexed model truncates.
-/
def bresLoop (steep : Bool) (dx dy ystep : Int) : Nat → Int → Int → Int → List (Int × Int)
  | 0, _, _, _ => []
  | fuel + 1, x0, y0, err =>
    let p := if steep then (y0, x0) else (x0, y0)
    -- err -= dy; if (err < 0) { y0 += ystep; err += dx; }
    let err2 := i16 (err - dy)
    if err2 < 0 then
      p :: bresLoop steep dx dy ystep fuel (i16 (x0 + 1)) (i16 (y0 + ystep)) (i16 (err2 + dx))
    else
      p :: bresLoop steep dx dy ystep fuel (i16 (x0 + 1)) y0 err2

/-- The two endpoint swaps at the head of writeLine: steep = |y1-y0| > |x1-x0|
    (computed on exact int values); if steep, each endpoint's coordinates are
    swapped; then if x0 > x1 the endpoints are exchanged. -/
def canonLine (x0 y0 x1 y1 : Int) : Bool × Int × Int × Int × Int :=
  let steep : Bool := (y1 - y0).natAbs > (x1 - x0).natAbs
  let q := if steep then (y0, x0, y1, x1) else (x0, y0, x1, y1)
  if q.1 > q.2.2.1 then (steep, q.2.2.1, q.2.2.2, q.1, q.2.1) else (steep, q)

def writeLinePixels (x0 y0 x1 y1 : Int) : List (Int × Int) :=
  match canonLine x0 y0 x1 y1 with
  | (steep, a0, b0, a1, b1) =>
    -- const int16_t dx = x1 - x0;  const int16_t dy = abs(y1 - y0);
    let dx := i16 (a1 - a0)
    let dy := i16 ((b1 - b0).natAbs : Int)
    -- int16_t err = dx / 2;  (C division truncates toward zero)
    let ystep : Int := if b0 < b1 then 1 else -1
    bresLoop steep dx dy ystep (a1 - a0 + 1).toNat a0 b0 (Int.tdiv dx 2)

/-- Adafruit_GFX::drawFastVLine (lines 87-91): startWrite;
    writeLine(x, y, x, y + h - 1); endWrite.  The argument y + h - 1 narrows
    into writeLine's int16_t parameter. -/
def drawFastVLinePixels (x y h : Int) : List (Int × Int) :=
  writeLinePixels x y x (i16 (y + h - 1))

/-- Adafruit_GFX::drawFastHLine (lines 93-97): startWrite;
    writeLine(x, y, x + w - 1, y); endWrite. -/
def drawFastHLinePixels (x y w : Int) : List (Int × Int) :=
  writeLinePixels x y (i16 (x + w - 1)) y

/-- Adafruit_GFX::drawLine (lines 107-123): vertical and horizontal calls are
    special-cased to the fast-line paths with sorted endpoints; the general
    case opens a transaction around one writeLine call. -/
def drawLinePixels (x0 y0 x1 y1 : Int) : List (Int × Int) :=
  if x0 = x1 then
    let p := if y0 > y1 then (y1, y0) else (y0, y1)
    drawFastVLinePixels x0 p.1 (i16 (p.2 - p.1 + 1))
  else if y0 = y1 then
    let p := if x0 > x1 then (x1, x0) else (x0, x1)
    drawFastHLinePixels p.1 y0 (i16 (p.2 - p.1 + 1))
  else
    writeLinePixels x0 y0 x1 y1

/-
  Adafruit_GFX::fillRect (Adafruit_GFX.cpp lines 99-105), the generic
  base-class implementation:
      startWrite();
      for (int16_t i { x }; i < x + w; i++) { writeFastVLine(i, y, h, color); }
      endWrite();
  In the base class writeFastVLine forwards to drawFastVLine, so the pixel
  traffic is one drawFastVLine pixel list per column.  The loop runs w times
  when x + w - 1 stays within int16 range (otherwise the int16_t counter
  would wrap and the C loop would not terminate); the model's fuel is w.
-/
def gfxFillRectCols : Nat → Int → Int → Int → List (Int × Int)
  | 0, _, _, _ => []
  | n + 1, i, y, h => drawFastVLinePixels i y h ++ gfxFillRectCols n (i16 (i + 1)) y h

def gfxFillRectPixelCalls (x y w h : Int) : List (Int × Int) :=
  gfxFillRectCols w.toNat x y h

/-- Adafruit_GFX::fillRect calls startWrite() on line 100, before the column
    loop and without any clip test, so it opens a transaction no matter what
    rectangle it is given. -/
def gfxFillRectOpensTransaction (_x _y _w _h : Int) : Bool :=
  true

/-
  Adafruit_GFX::fillTriangle (Adafruit_GFX.cpp lines 293-383), modelled as
  the list of (x, y, w) arguments passed to writeFastHLine, in call order.
  sa and sb are int32_t accumulators; a, b, y, last are int16_t; the C
  divisions sa / dy01 etc. truncate toward zero (Int.tdiv).
-/
def triLoop1 (x0 dx01 dy01 dx02 dy02 : Int) : Nat → Int → Int → Int → List (Int × Int × Int)
  | 0, _, _, _ => []
  | fuel + 1, y, sa, sb =>
    let a := i16 (x0 + Int.tdiv sa dy01)
    let b := i16 (x0 + Int.tdiv sb dy02)
    let sa2 := i32 (sa + dx01)
    let sb2 := i32 (sb + dx02)
    let p := if a > b then (b, a) else (a, b)
    (p.1, y, i16 (p.2 - p.1 + 1)) :: triLoop1 x0 dx01 dy01 dx02 dy02 fuel (i16 (y + 1)) sa2 sb2

def triLoop2 (x1 x0 dx12 dy12 dx02 dy02 : Int) : Nat → Int → Int → Int → List (Int × Int × Int)
  | 0, _, _, _ => []
  | fuel + 1, y, sa, sb =>
    let a := i16 (x1 + Int.tdiv sa dy12)
    let b := i16 (x0 + Int.tdiv sb dy02)
    let sa2 := i32 (sa + dx12)
    let sb2 := i32 (sb + dx02)
    let p := if a > b then (b, a) else (a, b)
    (p.1, y, i16 (p.2 - p.1 + 1)) :: triLoop2 x1 x0 dx12 dy12 dx02 dy02 fuel (i16 (y + 1)) sa2 sb2

def fillTriangleSpans (X0 Y0 X1 Y1 X2 Y2 : Int) : List (Int × Int × Int) :=
  -- Sort coordinates by Y order (y2 >= y1 >= y0)
  let (x0, y0, x1, y1) := if Y0 > Y1 then (X1, Y1, X0, Y0) else (X0, Y0, X1, Y1)
  let (x1, y1, x2, y2) := if y1 > Y2 then (X2, Y2, x1, y1) else (x1, y1, X2, Y2)
  let (x0, y0, x1, y1) := if y0 > y1 then (x1, y1, x0, y0) else (x0, y0, x1, y1)
  if y0 = y2 then
    -- Handle awkward all-on-same-line case as its own thing
    -- a = b = x0; then widen by x1 and x2
    let ab1 := if x1 < x0 then (x1, x0) else if x1 > x0 then (x0, x1) else (x0, x0)
    let ab2 := if x2 < ab1.1 then (x2, ab1.2) else if x2 > ab1.2 then (ab1.1, x2) else ab1
    [(ab2.1, y0, i16 (ab2.2 - ab2.1 + 1))]
  else
    let dx01 := i16 (x1 - x0)
    let dy01 := i16 (y1 - y0)
    let dx02 := i16 (x2 - x0)
    let dy02 := i16 (y2 - y0)
    let dx12 := i16 (x2 - x1)
    let dy12 := i16 (y2 - y1)
    -- last = (y1 == y2) ? y1 : y1 - 1
    let last := if y1 = y2 then y1 else i16 (y1 - 1)
    let part1 := triLoop1 x0 dx01 dy01 dx02 dy02 (last - y0 + 1).toNat y0 0 0
    -- value of the loop counter y after the first loop
    let yc := max y0 (last + 1)
    -- sa = dx12 * (y - y1);  sb = dx02 * (y - y0);
    let sa := i32 (dx12 * (yc - y1))
    let sb := i32 (dx02 * (yc - y0))
    part1 ++ triLoop2 x1 x0 dx12 dy12 dx02 dy02 (y2 - yc + 1).toNat yc sa sb

/-- A span request (x, y, w) emitted to writeFastHLine covers pixel
    (px, py) when py is its row and px lies in [x, x + w). -/
def spanCovers (s : Int × Int × Int) (px py : Int) : Prop :=
  s.1 ≤ px ∧ px < s.1 + s.2.2 ∧ py = s.2.1

instance (s : Int × Int × Int) (px py : Int) : Decidable (spanCovers s px py) := by
  unfold spanCovers; infer_instance

/-
  Offscreen canvases (Adafruit_GFX.cpp lines 928-1146).  Each canvas keeps
  the raw constructor dimensions WIDTH/HEIGHT, the rotation-adjusted
  _width/_height, the rotation, and an optional buffer (none models a
  failed allocation, which every operation must tolerate).  The rotation
  switch at the head of each drawPixel body is shared verbatim between the
  three variants and is modelled once; its outputs stay within int16 range
  whenever the bounds test has passed on a well-formed canvas, so no
  narrowing is modelled inside it.
-/
def rotXY (rotation : Nat) (W H x y : Int) : Int × Int :=
  match rotation with
  | 1 => (W - 1 - y, x)
  | 2 => (W - 1 - x, H - 1 - y)
  | 3 => (y, H - 1 - x)
  | _ => (x, y)

/-- Store one byte into a list-modelled buffer.  A C store through an
    out-of-range pointer is heap corruption (undefined behavior); the model
    drops such stores. -/
def setByte (buf : List Nat) (idx : Int) (v : Nat) : List Nat :=
  if 0 ≤ idx ∧ idx < (buf.length : Int) then buf.set idx.toNat v else buf

/-- memset over the list-modelled buffer: count bytes of value v starting
    at index idx. -/
def memset8 (buf : List Nat) (idx : Int) (v : Nat) : Nat → List Nat
  | 0 => buf
  | n + 1 => memset8 (setByte buf idx v) (idx + 1) v n

structure GFXcanvas8 where
  WIDTH : Int
  HEIGHT : Int
  width : Int
  height : Int
  rotation : Nat
  buffer : Option (List Nat)
deriving DecidableEq

/-- GFXcanvas8 constructor (lines 988-995): Adafruit_GFX(w, h) initializes
    WIDTH, HEIGHT, _width, _height to w, h and rotation to 0; the buffer
    holds w * h bytes, zero-initialized when allocation succeeds. -/
def GFXcanvas8.init (w h : Int) : GFXcanvas8 :=
  ⟨w, h, w, h, 0, some (List.replicate (w * h).toNat 0)⟩

/-- Adafruit_GFX::setRotation (lines 735-751): rotation = x & 3; rotations
    0 and 2 keep (_width, _height) = (WIDTH, HEIGHT), rotations 1 and 3
    swap them. -/
def GFXcanvas8.setRotation (s : GFXcanvas8) (r : Nat) : GFXcanvas8 :=
  let rot := r &&& 3
  if rot = 0 ∨ rot = 2 then
    { s with rotation := rot, width := s.WIDTH, height := s.HEIGHT }
  else
    { s with rotation := rot, width := s.HEIGHT, height := s.WIDTH }

/-- GFXcanvas8::drawPixel (lines 1003-1030): null-buffer guard, bounds test
    against the rotation-adjusted _width/_height, rotation transform, then
    buffer[x + y * WIDTH] = color (the uint16_t color narrows to the
    uint8_t cell). -/
def GFXcanvas8.drawPixel (s : GFXcanvas8) (x y : Int) (color : Nat) : GFXcanvas8 :=
  match s.buffer with
  | none => s
  | some buf =>
    if x < 0 ∨ y < 0 ∨ s.width ≤ x ∨ s.height ≤ y then s
    else
      let r := rotXY s.rotation s.WIDTH s.HEIGHT x y
      { s with buffer := some (setByte buf (r.1 + r.2 * s.WIDTH) (color % 256)) }

/-- GFXcanvas8::fillScreen (lines 1032-1038): memset(buffer, color,
    WIDTH * HEIGHT). -/
def GFXcanvas8.fillScreen (s : GFXcanvas8) (color : Nat) : GFXcanvas8 :=
  match s.buffer with
  | none => s
  | some buf =>
    { s with buffer := some (memset8 buf 0 (color % 256) (s.WIDTH * s.HEIGHT).toNat) }

/-- GFXcanvas8::writeFastHLine (lines 1040-1083): clip x against the
    rotation-adjusted width (x2 = x + w - 1 narrows to int16_t), transform
    the single point (x, y) by the rotation switch, then
    memset(buffer + y * WIDTH + x, color, w) — one contiguous run of w
    bytes in the raw row-major buffer.  A negative final w would become a
    huge size_t count in C (undefined behavior); the model writes nothing
    in that case. -/
def GFXcanvas8.writeFastHLine (s : GFXcanvas8) (x y w : Int) (color : Nat) : GFXcanvas8 :=
  match s.buffer with
  | none => s
  | some buf =>
    if s.width ≤ x ∨ y < 0 ∨ s.height ≤ y then s
    else
      let x2 := i16 (x + w - 1)
      if x2 < 0 then s
      else
        let xw := if x < 0 then ((0 : Int), i16 (x2 + 1)) else (x, w)
        let w2 := if s.width ≤ x2 then i16 (s.width - xw.1) else xw.2
        let r := rotXY s.rotation s.WIDTH s.HEIGHT xw.1 y
        { s with buffer := some (memset8 buf (r.2 * s.WIDTH + r.1) (color % 256) w2.toNat) }

/-- Reference behaviour for a horizontal span: w individual drawPixel calls
    at logical coordinates (x+i, y), i = 0 .. w-1. -/
def GFXcanvas8.drawPixelRun (s : GFXcanvas8) (x y : Int) (color : Nat) : Nat → GFXcanvas8
  | 0 => s
  | n + 1 => GFXcanvas8.drawPixelRun (s.drawPixel x y color) (x + 1) y color n

/-- The operations a GFXcanvas8 exposes, for stating state invariants over
    arbitrary call sequences. -/
inductive CanvasOp
  | setRotation (r : Nat)
  | drawPixel (x y : Int) (color : Nat)
  | fillScreen (color : Nat)
  | writeFastHLine (x y w : Int) (color : Nat)

def GFXcanvas8.applyOp (s : GFXcanvas8) : CanvasOp → GFXcanvas8
  | .setRotation r => s.setRotation r
  | .drawPixel x y c => s.drawPixel x y c
  | .fillScreen c => s.fillScreen c
  | .writeFastHLine x y w c => s.writeFastHLine x y w c

def GFXcanvas8.run (s : GFXcanvas8) (ops : List CanvasOp) : GFXcanvas8 :=
  ops.foldl GFXcanvas8.applyOp s

/-- The rotation argument of the last setRotation in the list, reduced
    mod 4 (r0 when the list contains none). -/
def lastRotation : Nat → List CanvasOp → Nat
  | r, [] => r
  | _, CanvasOp.setRotation a :: ops => lastRotation (a % 4) ops
  | r, _ :: ops => lastRotation r ops

structure GFXcanvas16 where
  WIDTH : Int
  HEIGHT : Int
  width : Int
  height : Int
  rotation : Nat
  buffer : Option (Int → Nat)

/-- GFXcanvas16 constructor (lines 1086-1093): w * h 16-bit cells,
    zero-initialized when allocation succeeds. -/
def GFXcanvas16.init (w h : Int) : GFXcanvas16 :=
  ⟨w, h, w, h, 0, some fun _ => 0⟩

/-- Adafruit_GFX::setRotation applied to a GFXcanvas16. -/
def GFXcanvas16.setRotation (s : GFXcanvas16) (r : Nat) : GFXcanvas16 :=
  let rot := r &&& 3
  if rot = 0 ∨ rot = 2 then
    { s with rotation := rot, width := s.WIDTH, height := s.HEIGHT }
  else
    { s with rotation := rot, width := s.HEIGHT, height := s.WIDTH }

/-- GFXcanvas16::drawPixel (lines 1101-1129): null-buffer guard, bounds
    test, rotation transform, then buffer[x + y * WIDTH] = color. -/
def GFXcanvas16.drawPixel (s : GFXcanvas16) (x y : Int) (color : Nat) : GFXcanvas16 :=
  match s.buffer with
  | none => s
  | some buf =>
    if x < 0 ∨ y < 0 ∨ s.width ≤ x ∨ s.height ≤ y then s
    else
      let r := rotXY s.rotation s.WIDTH s.HEIGHT x y
      let idx := r.1 + r.2 * s.WIDTH
      { s with buffer := some fun i => if i = idx then color % 65536 else buf i }

/-- Read the raw (pre-rotation) buffer cell at raw coordinates (x, y):
    buffer[x + y * WIDTH], 0 for an absent buffer. -/
def GFXcanvas16.getRaw (s : GFXcanvas16) (x y : Int) : Nat :=
  match s.buffer with
  | none => 0
  | some buf => buf (x + y * s.WIDTH)

/-- Run a list of writePixel calls (one color) against a GFXcanvas16: this
    is what the base-class rasterizer traffic does to a canvas sink, since
    the base writePixel forwards to the canvas drawPixel. -/
def GFXcanvas16.drawPixels (s : GFXcanvas16) (ps : List (Int × Int)) (color : Nat) : GFXcanvas16 :=
  ps.foldl (fun t p => t.drawPixel p.1 p.2 color) s

structure GFXcanvas1 where
  WIDTH : Int
  HEIGHT : Int
  width : Int
  height : Int
  rotation : Nat
  buffer : Option (Int → Nat)

/-- GFXcanvas1 constructor (lines 928-935): ((w + 7) / 8) * h bytes,
    zero-initialized when allocation succeeds. -/
def GFXcanvas1.init (w h : Int) : GFXcanvas1 :=
  ⟨w, h, w, h, 0, some fun _ => 0⟩

/-- Adafruit_GFX::setRotation applied to a GFXcanvas1. -/
def GFXcanvas1.setRotation (s : GFXcanvas1) (r : Nat) : GFXcanvas1 :=
  let rot := r &&& 3
  if rot = 0 ∨ rot = 2 then
    { s with rotation := rot, width := s.WIDTH, height := s.HEIGHT }
  else
    { s with rotation := rot, width := s.HEIGHT, height := s.WIDTH }

/-- GFXcanvas1::drawPixel (lines 943-976): null-buffer guard, bounds test,
    rotation transform, then the byte at (x / 8) + y * ((WIDTH + 7) / 8)
    has bit 0x80 >> (x & 7) set (nonzero color) or cleared (zero color).
    The C divisions truncate toward zero (Int.tdiv); x & 7 on a (possibly
    negative) int16 equals the nonnegative remainder x % 8 in two's
    complement. -/
def GFXcanvas1.drawPixel (s : GFXcanvas1) (x y : Int) (color : Nat) : GFXcanvas1 :=
  match s.buffer with
  | none => s
  | some buf =>
    if x < 0 ∨ y < 0 ∨ s.width ≤ x ∨ s.height ≤ y then s
    else
      let r := rotXY s.rotation s.WIDTH s.HEIGHT x y
      let idx := Int.tdiv r.1 8 + r.2 * (Int.tdiv (s.WIDTH + 7) 8)
      let mask := 128 >>> (r.1 % 8).toNat
      let newByte := if color ≠ 0 then buf idx ||| mask else buf idx &&& (255 - mask)
      { s with buffer := some fun i => if i = idx then newByte else buf i }

/-- Read the raw buffer bit for raw coordinates (x, y): MSB-first within
    the byte at (x / 8) + y * ((WIDTH + 7) / 8); false for an absent
    buffer. -/
def GFXcanvas1.getRawPixel (s : GFXcanvas1) (x y : Int) : Bool :=
  match s.buffer with
  | none => false
  | some buf =>
    Nat.testBit (buf (Int.tdiv x 8 + y * (Int.tdiv (s.WIDTH + 7) 8))) (7 - (x % 8)).toNat


theorem i16_eq_self (z : Int) (h1 : -32768 ≤ z) (h2 : z ≤ 32767) : i16 z = z := by
  unfold i16; omega

theorem i32_eq_self (z : Int) (h1 : -2147483648 ≤ z) (h2 : z ≤ 2147483647) : i32 z = z := by
  unfold i32; omega

/--
  C10: for all 8-bit channel values, color565(red, green, blue) equals
  (red/8)*2^11 + (green/4)*2^5 + (blue/8) with truncating division: the
  packed 5-6-5 value whose fields are the top 5, 6 and 5 bits of the
  channels.  The function is pure by construction.
-/
theorem color565_packs_565 (r g b : Nat) (hr : r < 256) (hg : g < 256) (hb : b < 256) :
    color565 r g b = r / 8 * 2 ^ 11 + g / 4 * 2 ^ 5 + b / 8 := by
  have h1 : ∀ x < 256, (x &&& 0xF8) <<< 8 = 2 ^ 11 * (x / 8) := by decide
  have h2 : ∀ x < 256, (x &&& 0xFC) <<< 3 = 2 ^ 5 * (x / 4) := by decide
  have h3 : ∀ x < 256, x >>> 3 = x / 8 := by decide
  unfold color565
  rw [h1 r hr, h2 g hg, h3 b hb]
  have hb5 : b / 8 < 2 ^ 5 := by omega
  have hlow : 2 ^ 5 * (g / 4) + b / 8 < 2 ^ 11 := by omega
  rw [Nat.or_assoc, ← Nat.mul_add_lt_is_or hb5 (g / 4), ← Nat.mul_add_lt_is_or hlow (r / 8)]
  ring

theorem color565_packs_565_witness :
    255 < 256 ∧ color565 255 129 33 = 255 / 8 * 2 ^ 11 + 129 / 4 * 2 ^ 5 + 33 / 8 :=
  ⟨by decide, color565_packs_565 255 129 33 (by decide) (by decide) (by decide)⟩

/--
  C8: writeColor(color, len) issues exactly len 16-bit color values to the
  bus (none when len = 0), and no single bulk block transfer it performs
  exceeds SPI_BLOCKSIZE = 32 pixels, so working memory is bounded
  independently of len.
-/
theorem writeColor_exact_and_chunked (color len : Nat) :
    busPixels (writeColor color len) = len ∧
    blocksWithin (writeColor color len) SPI_BLOCKSIZE = true := by
  match len with
  | 0 => exact ⟨rfl, rfl⟩
  | 1 => exact ⟨rfl, rfl⟩
  | 2 => exact ⟨rfl, rfl⟩
  | 3 => exact ⟨rfl, rfl⟩
  | 4 => exact ⟨rfl, rfl⟩
  | (m + 5) =>
    constructor
    · show busPixels (List.replicate ((m + 5) / 32) (BusEvent.transfer 32 (byteswap16 color))
          ++ [BusEvent.transfer ((m + 5) - (m + 5) / 32 * 32) (byteswap16 color)]) = m + 5
      unfold busPixels
      rw [List.map_append, List.sum_append, List.map_replicate]
      simp [eventPixels]
      omega
    · show blocksWithin (List.replicate ((m + 5) / 32) (BusEvent.transfer 32 (byteswap16 color))
          ++ [BusEvent.transfer ((m + 5) - (m + 5) / 32 * 32) (byteswap16 color)]) 32 = true
      unfold blocksWithin
      rw [List.all_append]
      simp only [List.all_eq_true, List.mem_replicate, Bool.and_eq_true]
      refine ⟨fun e he => by rw [he.2]; simp, ?_⟩
      intro x hx
      rw [List.mem_singleton] at hx
      subst hx
      simp only [decide_eq_true_eq]
      omega

theorem rectOverlaps_iff (W H x y w h : Int) :
    rectOverlaps W H x y w h ↔
      0 < W ∧ 0 < H ∧ 0 < normExt w ∧ 0 < normExt h ∧
      normPos x w < W ∧ 0 < normPos x w + normExt w ∧
      normPos y h < H ∧ 0 < normPos y h + normExt h := by
  constructor
  · rintro ⟨px, py, h1, h2⟩
    unfold specRect at h1
    unfold specScreen at h2
    omega
  · rintro ⟨c0, c00, c1, c2, c3, c4, c5, c6⟩
    refine ⟨max (normPos x w) 0, max (normPos y h) 0, ?_, ?_⟩
    · unfold specRect
      omega
    · unfold specScreen
      omega

theorem clipStep3_some (W H x y w h : Int)
    (hW1 : 0 ≤ W) (hW2 : W ≤ 32767) (hH1 : 0 ≤ H) (hH2 : H ≤ 32767)
    (hx1 : -32768 ≤ x) (hx2 : x ≤ 32767) (hy1 : -32768 ≤ y) (hy2 : y ≤ 32767)
    (hw0 : 0 < w) (hw2 : w ≤ 32767) (hh0 : 0 < h) (hh2 : h ≤ 32767)
    (g1 : y < H) (g2 : 0 < x + w) (g3 : 0 < y + h) :
    clipStep3 W H x y w h =
      some (max x 0, max y 0, min (x + w) W - max x 0, min (y + h) H - max y 0) := by
  unfold clipStep3 i16
  split_ifs <;>
    first
      | omega
      | (simp only [Option.some.injEq, Prod.mk.injEq]; omega)

theorem clipStep3_none (W H x y w h : Int)
    (hno : ¬ (y < H ∧ 0 < x + w ∧ 0 < y + h)) :
    clipStep3 W H x y w h = none := by
  unfold clipStep3
  split_ifs with g1 g2 g3
  · exact absurd ⟨g1, by omega, by omega⟩ hno
  all_goals rfl

theorem clipStep2_some (W H x y w h : Int)
    (hW1 : 0 ≤ W) (hW2 : W ≤ 32767) (hH1 : 0 ≤ H) (hH2 : H ≤ 32767)
    (hx1 : -32768 ≤ x) (hx2 : x ≤ 32767) (hy1 : -32768 ≤ y) (hy2 : y ≤ 32767)
    (hw0 : 0 < w) (hw2 : w ≤ 32767) (hh1 : -32767 ≤ h) (hh2 : h ≤ 32767)
    (hny : -32768 ≤ normPos y h)
    (c2 : 0 < normExt h)
    (g0 : x < W) (g2 : 0 < x + w)
    (c5 : normPos y h < H) (c6 : 0 < normPos y h + normExt h) :
    clipStep2 W H x y w h =
      some (max x 0, max (normPos y h) 0, min (x + w) W - max x 0,
            min (normPos y h + normExt h) H - max (normPos y h) 0) := by
  unfold clipStep2
  rw [if_pos g0]
  rcases lt_or_ge h 0 with hh | hh
  · simp only [normPos, normExt, if_pos hh] at *
    rw [i16_eq_self (y + h + 1) (by omega) (by omega),
      i16_eq_self (-h) (by omega) (by omega)]
    exact clipStep3_some W H x (y + h + 1) w (-h) hW1 hW2 hH1 hH2 hx1 hx2 (by omega)
      (by omega) hw0 hw2 (by omega) (by omega) c5 g2 (by omega)
  · simp only [normPos, normExt, if_neg (not_lt.mpr hh)] at *
    exact clipStep3_some W H x y w h hW1 hW2 hH1 hH2 hx1 hx2 hy1 hy2 hw0 hw2
      (by omega) hh2 c5 g2 (by omega)

theorem clipStep2_none (W H x y w h : Int)
    (hy1 : -32768 ≤ y) (hy2 : y ≤ 32767) (hh1 : -32767 ≤ h) (hh2 : h ≤ 32767)
    (hny : -32768 ≤ normPos y h)
    (hno : ¬ (x < W ∧ 0 < x + w ∧
              normPos y h < H ∧ 0 < normPos y h + normExt h)) :
    clipStep2 W H x y w h = none := by
  unfold clipStep2
  split_ifs with g0 hh
  · have hnp : normPos y h = y + h + 1 := by unfold normPos; rw [if_pos hh]
    have hne : normExt h = -h := by unfold normExt; rw [if_pos hh]
    rw [hnp] at hny
    rw [i16_eq_self (y + h + 1) (by omega) (by omega),
      i16_eq_self (-h) (by omega) (by omega)]
    apply clipStep3_none
    rintro ⟨a, b, c⟩
    apply hno
    rw [hnp, hne]
    exact ⟨g0, b, a, by omega⟩
  · have hnp : normPos y h = y := by unfold normPos; rw [if_neg hh]
    have hne : normExt h = h := by unfold normExt; rw [if_neg hh]
    apply clipStep3_none
    rintro ⟨a, b, c⟩
    apply hno
    rw [hnp, hne]
    exact ⟨g0, b, a, c⟩
  · rfl

/-- Characterization of the shared clip body on inputs whose normalization
    does not overflow int16 and whose normalized rectangle overlaps the
    screen: the surviving rectangle is the exact geometric intersection. -/
theorem clipFillRect_eq_inter (W H x y w h : Int)
    (hW1 : 0 ≤ W) (hW2 : W ≤ 32767) (hH1 : 0 ≤ H) (hH2 : H ≤ 32767)
    (hx1 : -32768 ≤ x) (hx2 : x ≤ 32767) (hy1 : -32768 ≤ y) (hy2 : y ≤ 32767)
    (hw1 : -32767 ≤ w) (hw2 : w ≤ 32767) (hh1 : -32767 ≤ h) (hh2 : h ≤ 32767)
    (hnx : -32768 ≤ normPos x w) (hny : -32768 ≤ normPos y h)
    (c1 : 0 < normExt w) (c2 : 0 < normExt h)
    (c3 : normPos x w < W) (c4 : 0 < normPos x w + normExt w)
    (c5 : normPos y h < H) (c6 : 0 < normPos y h + normExt h) :
    clipFillRect W H x y w h =
      some (max (normPos x w) 0, max (normPos y h) 0,
            min (normPos x w + normExt w) W - max (normPos x w) 0,
            min (normPos y h + normExt h) H - max (normPos y h) 0) := by
  unfold clipFillRect
  rw [if_neg (show ¬ (w = 0 ∨ h = 0) by
    unfold normExt at c1 c2
    rcases lt_or_ge w 0 with hw | hw <;> rcases lt_or_ge h 0 with hh | hh <;>
      simp_all <;> omega)]
  rcases lt_or_ge w 0 with hw | hw
  · simp only [normPos, normExt, if_pos hw] at hnx c1 c3 c4 ⊢
    rw [i16_eq_self (x + w + 1) (by omega) (by omega),
      i16_eq_self (-w) (by omega) (by omega)]
    exact clipStep2_some W H (x + w + 1) y (-w) h hW1 hW2 hH1 hH2 (by omega)
      (by omega) hy1 hy2 (by omega) (by omega) hh1 hh2 hny c2 c3 (by omega) c5 c6
  · simp only [normPos, normExt, if_neg (not_lt.mpr hw)] at hnx c1 c3 c4 ⊢
    exact clipStep2_some W H x y w h hW1 hW2 hH1 hH2 hx1 hx2 hy1 hy2 (by omega)
      hw2 hh1 hh2 hny c2 c3 (by omega) c5 c6

/-- On inputs whose normalization does not overflow int16, a normalized
    rectangle whose guard conjunction fails is rejected before any
    writeFillRectPreclipped call is reached. -/
theorem clipFillRect_eq_none (W H x y w h : Int)
    (hx2 : x ≤ 32767) (hy1 : -32768 ≤ y) (hy2 : y ≤ 32767)
    (hw1 : -32767 ≤ w) (hw2 : w ≤ 32767) (hh1 : -32767 ≤ h) (hh2 : h ≤ 32767)
    (hnx : -32768 ≤ normPos x w) (hny : -32768 ≤ normPos y h)
    (hno : ¬ (0 < normExt w ∧ 0 < normExt h ∧
              normPos x w < W ∧ 0 < normPos x w + normExt w ∧
              normPos y h < H ∧ 0 < normPos y h + normExt h)) :
    clipFillRect W H x y w h = none := by
  by_cases g0 : w = 0 ∨ h = 0
  · unfold clipFillRect
    rw [if_pos g0]
  · have hw0 : w ≠ 0 := fun hcon => g0 (Or.inl hcon)
    have hh0 : h ≠ 0 := fun hcon => g0 (Or.inr hcon)
    have hew : 0 < normExt w := by unfold normExt; split_ifs <;> omega
    have heh : 0 < normExt h := by unfold normExt; split_ifs <;> omega
    unfold clipFillRect
    rw [if_neg g0]
    rcases lt_or_ge w 0 with hw | hw
    · have hnx2 : -32768 ≤ x + w + 1 := by
        have hcopy := hnx
        unfold normPos at hcopy
        rw [if_pos hw] at hcopy
        exact hcopy
      rw [if_pos hw, if_pos hw, i16_eq_self (x + w + 1) (by omega) (by omega),
        i16_eq_self (-w) (by omega) (by omega)]
      apply clipStep2_none W H (x + w + 1) y (-w) h hy1 hy2 hh1 hh2 hny
      rintro ⟨a, b, c, d⟩
      apply hno
      have h3 : normPos x w < W := by unfold normPos; rw [if_pos hw]; exact a
      have h4 : 0 < normPos x w + normExt w := by
        unfold normPos normExt
        rw [if_pos hw, if_pos hw]
        omega
      exact ⟨hew, heh, h3, h4, c, d⟩
    · have hwn := not_lt.mpr hw
      rw [if_neg hwn, if_neg hwn]
      apply clipStep2_none W H x y w h hy1 hy2 hh1 hh2 hny
      rintro ⟨a, b, c, d⟩
      apply hno
      have h3 : normPos x w < W := by unfold normPos; rw [if_neg hwn]; exact a
      have h4 : 0 < normPos x w + normExt w := by
        unfold normPos normExt
        rw [if_neg hwn, if_neg hwn]
        omega
      exact ⟨hew, heh, h3, h4, c, d⟩

/--
  C1 (amended): for every canvas W×H and every fillRect request whose
  extents exceed -32768 (so that the int16 negation -w, -h in the
  normalization step cannot overflow) and whose normalized rectangle
  partially overlaps the visible area, the set of pixels written by
  Adafruit_SPITFT::fillRect / writeFillRect equals exactly the geometric
  intersection of the requested rectangle with [0,W) × [0,H).
-/
theorem fillRect_partial_overlap_exact (W H x y w h px py : Int)
    (hW1 : 0 ≤ W) (hW2 : W ≤ 32767) (hH1 : 0 ≤ H) (hH2 : H ≤ 32767)
    (hx1 : -32768 ≤ x) (hx2 : x ≤ 32767) (hy1 : -32768 ≤ y) (hy2 : y ≤ 32767)
    (hw1 : -32767 ≤ w) (hw2 : w ≤ 32767) (hh1 : -32767 ≤ h) (hh2 : h ≤ 32767)
    (hov : rectOverlaps W H x y w h) :
    fillRectWrites W H x y w h px py = true ↔
      specRect x y w h px py ∧ specScreen W H px py := by
  obtain ⟨c0, c00, c1, c2, c3, c4, c5, c6⟩ := (rectOverlaps_iff W H x y w h).mp hov
  have hnx : -32768 ≤ normPos x w := by
    rcases lt_or_ge w 0 with hw | hw
    · have e1 : normPos x w = x + w + 1 := by unfold normPos; rw [if_pos hw]
      have e2 : normExt w = -w := by unfold normExt; rw [if_pos hw]
      rw [e1]
      rw [e1, e2] at c4
      omega
    · have e1 : normPos x w = x := by unfold normPos; rw [if_neg (not_lt.mpr hw)]
      rw [e1]
      omega
  have hny : -32768 ≤ normPos y h := by
    rcases lt_or_ge h 0 with hh | hh
    · have e1 : normPos y h = y + h + 1 := by unfold normPos; rw [if_pos hh]
      have e2 : normExt h = -h := by unfold normExt; rw [if_pos hh]
      rw [e1]
      rw [e1, e2] at c6
      omega
    · have e1 : normPos y h = y := by unfold normPos; rw [if_neg (not_lt.mpr hh)]
      rw [e1]
      omega
  unfold fillRectWrites
  rw [clipFillRect_eq_inter W H x y w h hW1 hW2 hH1 hH2 hx1 hx2 hy1 hy2 hw1 hw2
    hh1 hh2 hnx hny c1 c2 c3 c4 c5 c6]
  simp only [Bool.and_eq_true, decide_eq_true_eq]
  unfold specRect specScreen
  omega

theorem fillRect_partial_overlap_exact_witness :
    rectOverlaps 100 100 (-5) 10 20 5 ∧
    clipFillRect 100 100 (-5) 10 20 5 = some (0, 10, 15, 5) ∧
    (fillRectWrites 100 100 (-5) 10 20 5 3 12 = true ↔
      specRect (-5) 10 20 5 3 12 ∧ specScreen 100 100 3 12) :=
  ⟨⟨0, 10, by decide, by decide⟩, by decide,
    fillRect_partial_overlap_exact 100 100 (-5) 10 20 5 3 12 (by decide) (by decide)
      (by decide) (by decide) (by decide) (by decide) (by decide) (by decide)
      (by decide) (by decide) (by decide) (by decide) ⟨0, 10, by decide, by decide⟩⟩

/--
  C1 counterexample to the claim as stated: on a 100×100 canvas the request
  fillRect(x=5, y=10, w=-32768, h=5) has a normalized rectangle
  [-32762, 6) × [10, 15) that overlaps the visible area (pixel (0, 10) is
  in the intersection), yet the code writes nothing: w = -w narrows -32768
  back to -32768 in the int16_t width, so the "not off left" guard
  x + w - 1 >= 0 fails and every pixel of the intersection is missed.
-/
theorem fillRect_partial_overlap_counterexample :
    specRect 5 10 (-32768) 5 0 10 ∧ specScreen 100 100 0 10 ∧
    clipFillRect 100 100 5 10 (-32768) 5 = none ∧
    fillRectWrites 100 100 5 10 (-32768) 5 0 10 = false :=
  ⟨by decide, by decide, by decide, by decide⟩

/--
  C2 (amended): for the hardware-sink implementation
  Adafruit_SPITFT::fillRect on a display with positive int16 dimensions,
  and for requests whose negative-extent normalization stays within int16
  range, a rectangle whose normalized form lies fully outside
  [0,W) × [0,H) produces zero pixel writes and never reaches startWrite:
  no transaction is opened.  (The generic base-class implementation does
  not satisfy this: see the counterexample.)
-/
theorem fillRect_full_reject_no_transaction (W H x y w h : Int)
    (hW1 : 0 < W) (hH1 : 0 < H)
    (hx2 : x ≤ 32767) (hy1 : -32768 ≤ y) (hy2 : y ≤ 32767)
    (hw1 : -32767 ≤ w) (hw2 : w ≤ 32767) (hh1 : -32767 ≤ h) (hh2 : h ≤ 32767)
    (hnx : -32768 ≤ normPos x w) (hny : -32768 ≤ normPos y h)
    (hno : ¬ rectOverlaps W H x y w h) :
    clipFillRect W H x y w h = none ∧
    fillRectOpensTransaction W H x y w h = false ∧
    ∀ px py : Int, fillRectWrites W H x y w h px py = false := by
  have hn : clipFillRect W H x y w h = none := by
    apply clipFillRect_eq_none W H x y w h hx2 hy1 hy2 hw1 hw2 hh1 hh2 hnx hny
    rintro ⟨c1, c2, c3, c4, c5, c6⟩
    exact hno ((rectOverlaps_iff W H x y w h).mpr ⟨hW1, hH1, c1, c2, c3, c4, c5, c6⟩)
  refine ⟨hn, ?_, ?_⟩
  · unfold fillRectOpensTransaction
    rw [hn]
    rfl
  · intro px py
    unfold fillRectWrites
    rw [hn]

theorem fillRect_full_reject_no_transaction_witness :
    (¬ rectOverlaps 100 100 200 0 5 5) ∧
    clipFillRect 100 100 200 0 5 5 = none ∧
    fillRectOpensTransaction 100 100 200 0 5 5 = false ∧
    ∀ px py : Int, fillRectWrites 100 100 200 0 5 5 px py = false := by
  have hno : ¬ rectOverlaps 100 100 200 0 5 5 := fun hov => by
    have := (rectOverlaps_iff 100 100 200 0 5 5).mp hov
    revert this
    decide
  exact ⟨hno, fillRect_full_reject_no_transaction 100 100 200 0 5 5 (by decide)
    (by decide) (by decide) (by decide) (by decide) (by decide)
    (by decide) (by decide) (by decide) (by decide) (by decide) hno⟩

/--
  C2 counterexample to the claim as stated: the generic base-class
  implementation Adafruit_GFX::fillRect does not clip-reject before its
  transaction.  On a 3×3 canvas the request fillRect(x=0, y=6, w=1, h=-4)
  has a normalized rectangle [0, 1) × [3, 7), fully outside the 3×3 visible
  area, yet the base-class code (a) calls startWrite() unconditionally
  (line 100), opening a transaction, and (b) hands h = -4 to
  writeFastVLine, whose writeLine(x, y, x, y + h - 1) walks rows 1..6 and
  therefore writes the on-screen pixels (0, 1) and (0, 2): not even the
  "zero pixel writes" half survives.
-/
theorem fillRect_full_reject_counterexample :
    (∀ px py : Int, specRect 0 6 1 (-4) px py → ¬ specScreen 3 3 px py) ∧
    gfxFillRectOpensTransaction 0 6 1 (-4) = true ∧
    ((GFXcanvas16.init 3 3).drawPixels (gfxFillRectPixelCalls 0 6 1 (-4)) 7).getRaw 0 1 = 7 ∧
    (GFXcanvas16.init 3 3).getRaw 0 1 = 0 := by
  refine ⟨?_, rfl, by decide, by decide⟩
  intro px py h1 h2
  unfold specRect normPos normExt at h1
  unfold specScreen at h2
  simp only [show ((-4 : Int) < 0) = True by simp, if_true] at h1
  omega

theorem natAbs_sub_swap (a b : Int) : (a - b).natAbs = (b - a).natAbs := by
  rw [← Int.natAbs_neg (a - b), neg_sub]

/-- The endpoint swaps at the head of writeLine canonicalize both argument
    orders to the same tuple (when the canonical endpoints share an x, the
    not-steep condition forces the y coordinates equal too). -/
theorem canonLine_symm (x0 y0 x1 y1 : Int) :
    canonLine x0 y0 x1 y1 = canonLine x1 y1 x0 y0 := by
  simp only [canonLine, gt_iff_lt]
  rw [natAbs_sub_swap x0 x1, natAbs_sub_swap y0 y1]
  by_cases h : (x1 - x0).natAbs < (y1 - y0).natAbs
  · simp only [h, decide_True, if_true]
    rcases lt_trichotomy y0 y1 with hy | hy | hy
    · rw [if_neg (by omega), if_pos (by omega)]
    · exact absurd h (by omega)
    · rw [if_pos (by omega), if_neg (by omega)]
  · simp only [h, decide_False, if_false, Bool.false_eq_true]
    rcases lt_trichotomy x0 x1 with hx | hx | hx
    · rw [if_neg (by omega), if_pos (by omega)]
    · have hy : y0 = y1 := by omega
      subst hx
      subst hy
      rfl
    · rw [if_pos (by omega), if_neg (by omega)]

theorem writeLinePixels_symm (x0 y0 x1 y1 : Int) :
    writeLinePixels x0 y0 x1 y1 = writeLinePixels x1 y1 x0 y0 := by
  unfold writeLinePixels
  rw [canonLine_symm]

theorem drawLinePixels_symm (x0 y0 x1 y1 : Int) :
    drawLinePixels x0 y0 x1 y1 = drawLinePixels x1 y1 x0 y0 := by
  simp only [drawLinePixels]
  by_cases hx : x0 = x1
  · rw [if_pos hx, if_pos hx.symm]
    subst hx
    rcases lt_trichotomy y0 y1 with hy | hy | hy
    · rw [if_neg (show ¬ (y0 > y1) by omega), if_pos (show y1 > y0 by omega)]
    · subst hy
      rw [if_neg (show ¬ (y0 > y0) by omega)]
    · rw [if_pos (show y0 > y1 by omega), if_neg (show ¬ (y1 > y0) by omega)]
  · rw [if_neg hx, if_neg (show ¬ (x1 = x0) from fun hc => hx hc.symm)]
    by_cases hy : y0 = y1
    · rw [if_pos hy, if_pos hy.symm]
      subst hy
      rcases lt_trichotomy x0 x1 with hxx | hxx | hxx
      · rw [if_neg (show ¬ (x0 > x1) by omega), if_pos (show x1 > x0 by omega)]
      · exact absurd hxx hx
      · rw [if_pos (show x0 > x1 by omega), if_neg (show ¬ (x1 > x0) by omega)]
    · rw [if_neg hy, if_neg (show ¬ (y1 = y0) from fun hc => hy hc.symm)]
      exact writeLinePixels_symm x0 y0 x1 y1

/--
  C6: drawLine(x0, y0, x1, y1, color) and drawLine(x1, y1, x0, y0, color)
  write to the identical set of pixel coordinates: the Bresenham
  rasterization (and both fast-line special cases) is invariant under
  exchanging the two endpoints.  The color argument does not influence
  which pixels are touched.
-/
theorem drawLine_endpoint_symmetric (x0 y0 x1 y1 : Int) (p : Int × Int) :
    p ∈ drawLinePixels x0 y0 x1 y1 ↔ p ∈ drawLinePixels x1 y1 x0 y0 := by
  rw [drawLinePixels_symm]

/--
  C7 (amended): for every three vertices with equal y-coordinates whose
  horizontal spread max(x) - min(x) stays below 32767 (so the int16 span
  width b - a + 1 cannot overflow), fillTriangle emits exactly one
  horizontal span request, covering the pixel columns from min(x0, x1, x2)
  to max(x0, x1, x2) inclusive at row y, and emits nothing else.
-/
theorem fillTriangle_degenerate (x0 x1 x2 y : Int)
    (h0a : -32768 ≤ x0) (h0b : x0 ≤ 32767) (h1a : -32768 ≤ x1) (h1b : x1 ≤ 32767)
    (h2a : -32768 ≤ x2) (h2b : x2 ≤ 32767)
    (hspan : max x0 (max x1 x2) - min x0 (min x1 x2) ≤ 32766) :
    fillTriangleSpans x0 y x1 y x2 y =
      [(min x0 (min x1 x2), y, max x0 (max x1 x2) - min x0 (min x1 x2) + 1)] ∧
    ∀ px py : Int,
      spanCovers (min x0 (min x1 x2), y, max x0 (max x1 x2) - min x0 (min x1 x2) + 1) px py ↔
        min x0 (min x1 x2) ≤ px ∧ px ≤ max x0 (max x1 x2) ∧ py = y := by
  constructor
  · simp only [fillTriangleSpans, gt_iff_lt, lt_self_iff_false, if_false, if_true]
    split_ifs <;>
      (simp only [List.cons.injEq, Prod.mk.injEq, i16, and_true, eq_self_iff_true, true_and]
       omega)
  · intro px py
    simp only [spanCovers]
    omega

theorem fillTriangle_degenerate_witness :
    (max 3 (max 9 5) - min 3 (min 9 5) : Int) ≤ 32766 ∧
    fillTriangleSpans 3 7 9 7 5 7 = [(3, 7, 7)] :=
  ⟨by decide,
   ((fillTriangle_degenerate 3 9 5 7 (by decide) (by decide) (by decide) (by decide)
      (by decide) (by decide) (by decide)).1).trans (by decide)⟩

/--
  C7 counterexample to the claim as stated: with vertices x = -32768 and
  x = 32767 on the same row, the span width b - a + 1 = 65536 narrows to 0
  in writeFastHLine's int16_t parameter, so the single emitted span has
  width 0 and covers no pixel column at all (e.g. not column 0, which lies
  between min(x) and max(x)); the hardware writeFastHLine rejects a
  zero-width span, so nothing is drawn instead of the claimed full row.
-/
theorem fillTriangle_degenerate_counterexample :
    fillTriangleSpans (-32768) 5 32767 5 0 5 = [(-32768, 5, 0)] ∧
    ¬ spanCovers (-32768, 5, 0) 0 5 :=
  ⟨by decide, by decide⟩

theorem and3_eq_mod4 (r : Nat) : r &&& 3 = r % 4 := by
  have := Nat.and_pow_two_sub_one_eq_mod r 2
  simpa using this

theorem setRotation8_fields (s : GFXcanvas8) (r : Nat) :
    (s.setRotation r).WIDTH = s.WIDTH ∧ (s.setRotation r).HEIGHT = s.HEIGHT ∧
    (s.setRotation r).rotation = r % 4 ∧ (s.setRotation r).buffer = s.buffer ∧
    ((s.setRotation r).width, (s.setRotation r).height) =
      (if r % 2 = 0 then (s.WIDTH, s.HEIGHT) else (s.HEIGHT, s.WIDTH)) := by
  simp only [GFXcanvas8.setRotation, and3_eq_mod4]
  split_ifs with hc hp hp <;>
    simp_all <;> omega

theorem drawPixel8_fields (s : GFXcanvas8) (x y : Int) (c : Nat) :
    (s.drawPixel x y c).WIDTH = s.WIDTH ∧ (s.drawPixel x y c).HEIGHT = s.HEIGHT ∧
    (s.drawPixel x y c).rotation = s.rotation ∧
    (s.drawPixel x y c).width = s.width ∧ (s.drawPixel x y c).height = s.height := by
  obtain ⟨a, b, wd, ht, rot, buf⟩ := s
  cases buf
  · simp [GFXcanvas8.drawPixel]
  · simp only [GFXcanvas8.drawPixel]
    split_ifs <;> simp

theorem fillScreen8_fields (s : GFXcanvas8) (c : Nat) :
    (s.fillScreen c).WIDTH = s.WIDTH ∧ (s.fillScreen c).HEIGHT = s.HEIGHT ∧
    (s.fillScreen c).rotation = s.rotation ∧
    (s.fillScreen c).width = s.width ∧ (s.fillScreen c).height = s.height := by
  obtain ⟨a, b, wd, ht, rot, buf⟩ := s
  cases buf
  · simp [GFXcanvas8.fillScreen]
  · simp [GFXcanvas8.fillScreen]

theorem writeFastHLine8_fields (s : GFXcanvas8) (x y w : Int) (c : Nat) :
    (s.writeFastHLine x y w c).WIDTH = s.WIDTH ∧ (s.writeFastHLine x y w c).HEIGHT = s.HEIGHT ∧
    (s.writeFastHLine x y w c).rotation = s.rotation ∧
    (s.writeFastHLine x y w c).width = s.width ∧ (s.writeFastHLine x y w c).height = s.height := by
  obtain ⟨a, b, wd, ht, rot, buf⟩ := s
  cases buf
  · simp [GFXcanvas8.writeFastHLine]
  · simp only [GFXcanvas8.writeFastHLine]
    split_ifs <;> simp

theorem run_invariant (ops : List CanvasOp) : ∀ s : GFXcanvas8,
    (s.width, s.height) = (if s.rotation % 2 = 0 then (s.WIDTH, s.HEIGHT) else (s.HEIGHT, s.WIDTH)) →
    (s.run ops).WIDTH = s.WIDTH ∧ (s.run ops).HEIGHT = s.HEIGHT ∧
    (s.run ops).rotation = lastRotation s.rotation ops ∧
    ((s.run ops).width, (s.run ops).height) =
      (if lastRotation s.rotation ops % 2 = 0 then (s.WIDTH, s.HEIGHT) else (s.HEIGHT, s.WIDTH)) := by
  induction ops with
  | nil =>
    intro s hinv
    exact ⟨rfl, rfl, rfl, hinv⟩
  | cons op ops ih =>
    intro s hinv
    have hrun : s.run (op :: ops) = (s.applyOp op).run ops := by
      simp [GFXcanvas8.run]
    cases op with
    | setRotation r =>
      obtain ⟨f1, f2, f3, f4, f5⟩ := setRotation8_fields s r
      have hmod : r % 4 % 2 = r % 2 := by omega
      have hinv2 : ((s.setRotation r).width, (s.setRotation r).height) =
          (if (s.setRotation r).rotation % 2 = 0
            then ((s.setRotation r).WIDTH, (s.setRotation r).HEIGHT)
            else ((s.setRotation r).HEIGHT, (s.setRotation r).WIDTH)) := by
        rw [f1, f2, f3, f5, hmod]
      obtain ⟨g1, g2, g3, g4⟩ := ih (s.setRotation r) hinv2
      rw [hrun]
      show (GFXcanvas8.run (s.setRotation r) ops).WIDTH = s.WIDTH ∧
        (GFXcanvas8.run (s.setRotation r) ops).HEIGHT = s.HEIGHT ∧
        (GFXcanvas8.run (s.setRotation r) ops).rotation =
          lastRotation s.rotation (CanvasOp.setRotation r :: ops) ∧
        ((GFXcanvas8.run (s.setRotation r) ops).width, (GFXcanvas8.run (s.setRotation r) ops).height) =
          (if lastRotation s.rotation (CanvasOp.setRotation r :: ops) % 2 = 0
            then (s.WIDTH, s.HEIGHT) else (s.HEIGHT, s.WIDTH))
      simp only [lastRotation]
      refine ⟨g1.trans f1, g2.trans f2, ?_, ?_⟩
      · rw [g3, f3]
      · rw [g4, f3, f1, f2]
    | drawPixel x y c =>
      obtain ⟨f1, f2, f3, f4, f5⟩ := drawPixel8_fields s x y c
      have hinv2 : ((s.drawPixel x y c).width, (s.drawPixel x y c).height) =
          (if (s.drawPixel x y c).rotation % 2 = 0
            then ((s.drawPixel x y c).WIDTH, (s.drawPixel x y c).HEIGHT)
            else ((s.drawPixel x y c).HEIGHT, (s.drawPixel x y c).WIDTH)) := by
        rw [f1, f2, f3, f4, f5]
        exact hinv
      obtain ⟨g1, g2, g3, g4⟩ := ih (s.drawPixel x y c) hinv2
      rw [hrun]
      show (GFXcanvas8.run (s.drawPixel x y c) ops).WIDTH = s.WIDTH ∧
        (GFXcanvas8.run (s.drawPixel x y c) ops).HEIGHT = s.HEIGHT ∧
        (GFXcanvas8.run (s.drawPixel x y c) ops).rotation =
          lastRotation s.rotation (CanvasOp.drawPixel x y c :: ops) ∧
        ((GFXcanvas8.run (s.drawPixel x y c) ops).width, (GFXcanvas8.run (s.drawPixel x y c) ops).height) =
          (if lastRotation s.rotation (CanvasOp.drawPixel x y c :: ops) % 2 = 0
            then (s.WIDTH, s.HEIGHT) else (s.HEIGHT, s.WIDTH))
      simp only [lastRotation]
      refine ⟨g1.trans f1, g2.trans f2, ?_, ?_⟩
      · rw [g3, f3]
      · rw [g4, f3, f1, f2]
    | fillScreen c =>
      obtain ⟨f1, f2, f3, f4, f5⟩ := fillScreen8_fields s c
      have hinv2 : ((s.fillScreen c).width, (s.fillScreen c).height) =
          (if (s.fillScreen c).rotation % 2 = 0
            then ((s.fillScreen c).WIDTH, (s.fillScreen c).HEIGHT)
            else ((s.fillScreen c).HEIGHT, (s.fillScreen c).WIDTH)) := by
        rw [f1, f2, f3, f4, f5]
        exact hinv
      obtain ⟨g1, g2, g3, g4⟩ := ih (s.fillScreen c) hinv2
      rw [hrun]
      show (GFXcanvas8.run (s.fillScreen c) ops).WIDTH = s.WIDTH ∧
        (GFXcanvas8.run (s.fillScreen c) ops).HEIGHT = s.HEIGHT ∧
        (GFXcanvas8.run (s.fillScreen c) ops).rotation =
          lastRotation s.rotation (CanvasOp.fillScreen c :: ops) ∧
        ((GFXcanvas8.run (s.fillScreen c) ops).width, (GFXcanvas8.run (s.fillScreen c) ops).height) =
          (if lastRotation s.rotation (CanvasOp.fillScreen c :: ops) % 2 = 0
            then (s.WIDTH, s.HEIGHT) else (s.HEIGHT, s.WIDTH))
      simp only [lastRotation]
      refine ⟨g1.trans f1, g2.trans f2, ?_, ?_⟩
      · rw [g3, f3]
      · rw [g4, f3, f1, f2]
    | writeFastHLine x y w c =>
      obtain ⟨f1, f2, f3, f4, f5⟩ := writeFastHLine8_fields s x y w c
      have hinv2 : ((s.writeFastHLine x y w c).width, (s.writeFastHLine x y w c).height) =
          (if (s.writeFastHLine x y w c).rotation % 2 = 0
            then ((s.writeFastHLine x y w c).WIDTH, (s.writeFastHLine x y w c).HEIGHT)
            else ((s.writeFastHLine x y w c).HEIGHT, (s.writeFastHLine x y w c).WIDTH)) := by
        rw [f1, f2, f3, f4, f5]
        exact hinv
      obtain ⟨g1, g2, g3, g4⟩ := ih (s.writeFastHLine x y w c) hinv2
      rw [hrun]
      show (GFXcanvas8.run (s.writeFastHLine x y w c) ops).WIDTH = s.WIDTH ∧
        (GFXcanvas8.run (s.writeFastHLine x y w c) ops).HEIGHT = s.HEIGHT ∧
        (GFXcanvas8.run (s.writeFastHLine x y w c) ops).rotation =
          lastRotation s.rotation (CanvasOp.writeFastHLine x y w c :: ops) ∧
        ((GFXcanvas8.run (s.writeFastHLine x y w c) ops).width,
            (GFXcanvas8.run (s.writeFastHLine x y w c) ops).height) =
          (if lastRotation s.rotation (CanvasOp.writeFastHLine x y w c :: ops) % 2 = 0
            then (s.WIDTH, s.HEIGHT) else (s.HEIGHT, s.WIDTH))
      simp only [lastRotation]
      refine ⟨g1.trans f1, g2.trans f2, ?_, ?_⟩
      · rw [g3, f3]
      · rw [g4, f3, f1, f2]

/--
  C4: after any sequence of canvas operations on a GFXcanvas8 constructed
  with raw dimensions (W, H), the rotation equals the last setRotation
  argument mod 4 (0 when none was issued), the raw dimensions are
  untouched, and the rotation-adjusted (width, height) is (W, H) for even
  rotation and (H, W) for odd rotation; drawPixel, fillScreen and
  writeFastHLine never change rotation, _width or _height.
-/
theorem setRotation_state_invariant (W H : Int) (ops : List CanvasOp) :
    ((GFXcanvas8.init W H).run ops).rotation = lastRotation 0 ops ∧
    ((GFXcanvas8.init W H).run ops).WIDTH = W ∧
    ((GFXcanvas8.init W H).run ops).HEIGHT = H ∧
    (((GFXcanvas8.init W H).run ops).width, ((GFXcanvas8.init W H).run ops).height) =
      (if lastRotation 0 ops % 2 = 0 then (W, H) else (H, W)) := by
  obtain ⟨g1, g2, g3, g4⟩ := run_invariant ops (GFXcanvas8.init W H) (by simp [GFXcanvas8.init])
  exact ⟨g3, g1, g2, g4⟩

/--
  C9: for every offscreen canvas variant (1-, 8- and 16-bit), drawPixel
  called with coordinates outside [0, width) x [0, height) at the current
  rotation, or called on a canvas whose buffer allocation failed (null
  buffer), returns with the canvas state (buffer included) completely
  unchanged; the functions are total, so no fault and no error channel
  exists.
-/
theorem drawPixel_noop_oob_or_null :
    (∀ (s : GFXcanvas1) (x y : Int) (c : Nat),
      (s.buffer = none ∨ x < 0 ∨ y < 0 ∨ s.width ≤ x ∨ s.height ≤ y) →
      s.drawPixel x y c = s) ∧
    (∀ (s : GFXcanvas8) (x y : Int) (c : Nat),
      (s.buffer = none ∨ x < 0 ∨ y < 0 ∨ s.width ≤ x ∨ s.height ≤ y) →
      s.drawPixel x y c = s) ∧
    (∀ (s : GFXcanvas16) (x y : Int) (c : Nat),
      (s.buffer = none ∨ x < 0 ∨ y < 0 ∨ s.width ≤ x ∨ s.height ≤ y) →
      s.drawPixel x y c = s) := by
  refine ⟨?_, ?_, ?_⟩
  · intro s x y c h
    obtain ⟨a, b, wd, ht, rot, buf⟩ := s
    cases buf with
    | none => rfl
    | some bf =>
      have hoob : x < 0 ∨ y < 0 ∨ wd ≤ x ∨ ht ≤ y := by
        rcases h with h | h
        · simp at h
        · exact h
      simp only [GFXcanvas1.drawPixel]
      rw [if_pos hoob]
  · intro s x y c h
    obtain ⟨a, b, wd, ht, rot, buf⟩ := s
    cases buf with
    | none => rfl
    | some bf =>
      have hoob : x < 0 ∨ y < 0 ∨ wd ≤ x ∨ ht ≤ y := by
        rcases h with h | h
        · simp at h
        · exact h
      simp only [GFXcanvas8.drawPixel]
      rw [if_pos hoob]
  · intro s x y c h
    obtain ⟨a, b, wd, ht, rot, buf⟩ := s
    cases buf with
    | none => rfl
    | some bf =>
      have hoob : x < 0 ∨ y < 0 ∨ wd ≤ x ∨ ht ≤ y := by
        rcases h with h | h
        · simp at h
        · exact h
      simp only [GFXcanvas16.drawPixel]
      rw [if_pos hoob]

theorem drawPixel_noop_witness :
    (GFXcanvas1.init 4 4).drawPixel (-1) 0 7 = GFXcanvas1.init 4 4 ∧
    (GFXcanvas8.init 4 4).drawPixel 0 99 7 = GFXcanvas8.init 4 4 ∧
    (GFXcanvas16.init 4 4).drawPixel 4 0 7 = GFXcanvas16.init 4 4 :=
  ⟨drawPixel_noop_oob_or_null.1 _ _ _ _ (Or.inr (Or.inl (by decide))),
   drawPixel_noop_oob_or_null.2.1 _ _ _ _ (Or.inr (Or.inr (Or.inr (Or.inr (by decide))))),
   drawPixel_noop_oob_or_null.2.2 _ _ _ _ (Or.inr (Or.inr (Or.inr (Or.inl (by decide)))))⟩

/--
  C5: rotation round-trip on offscreen canvases with raw dimensions (W, H):
  for every in-bounds logical position (x, y) and every color, drawing at
  rotation 0 and reading the raw buffer at (x, y) yields the same value as
  drawing the same pixel at rotation 2 on a fresh identical canvas and
  reading the raw buffer at (W-1-x, H-1-y); proved for both the 16-bit and
  the 1-bit canvas.
-/
theorem rotation_roundtrip (W H x y : Int) (c : Nat)
    (hx0 : 0 ≤ x) (hx : x < W) (hy0 : 0 ≤ y) (hy : y < H) :
    ((GFXcanvas16.init W H).drawPixel x y c).getRaw x y =
      (((GFXcanvas16.init W H).setRotation 2).drawPixel x y c).getRaw (W - 1 - x) (H - 1 - y) ∧
    ((GFXcanvas1.init W H).drawPixel x y c).getRawPixel x y =
      (((GFXcanvas1.init W H).setRotation 2).drawPixel x y c).getRawPixel (W - 1 - x) (H - 1 - y) := by
  have hg : ¬ (x < 0 ∨ y < 0 ∨ W ≤ x ∨ H ≤ y) := by omega
  constructor
  · have e2 : (GFXcanvas16.init W H).setRotation 2 = ⟨W, H, W, H, 2, some fun _ => 0⟩ := rfl
    rw [e2]
    show (GFXcanvas16.drawPixel ⟨W, H, W, H, 0, some fun _ => 0⟩ x y c).getRaw x y = _
    simp only [GFXcanvas16.drawPixel, rotXY, GFXcanvas16.getRaw, if_neg hg,
      eq_self_iff_true, if_true]
  · have e2 : (GFXcanvas1.init W H).setRotation 2 = ⟨W, H, W, H, 2, some fun _ => 0⟩ := rfl
    rw [e2]
    show (GFXcanvas1.drawPixel ⟨W, H, W, H, 0, some fun _ => 0⟩ x y c).getRawPixel x y = _
    simp only [GFXcanvas1.drawPixel, rotXY, GFXcanvas1.getRawPixel, if_neg hg,
      eq_self_iff_true, if_true]
    have hp1 : ((7 : Int) - (x % 8)).toNat = 7 - (x % 8).toNat := by omega
    have hp2 : ((7 : Int) - ((W - 1 - x) % 8)).toNat = 7 - ((W - 1 - x) % 8).toNat := by omega
    by_cases hc : c ≠ 0
    · rw [if_pos hc, if_pos hc, Nat.zero_or, Nat.zero_or]
      have hbit : ∀ k < 8, Nat.testBit (128 >>> k) (7 - k) = true := by decide
      rw [hp1, hp2, hbit _ (by omega), hbit _ (by omega)]
    · rw [if_neg hc, if_neg hc, Nat.zero_and, Nat.zero_and, Nat.zero_testBit, Nat.zero_testBit]

theorem rotation_roundtrip_witness :
    ((GFXcanvas16.init 4 4).drawPixel 1 2 9).getRaw 1 2 =
      (((GFXcanvas16.init 4 4).setRotation 2).drawPixel 1 2 9).getRaw (4 - 1 - 1) (4 - 1 - 2) ∧
    ((GFXcanvas1.init 4 4).drawPixel 1 2 9).getRawPixel 1 2 =
      (((GFXcanvas1.init 4 4).setRotation 2).drawPixel 1 2 9).getRawPixel (4 - 1 - 1) (4 - 1 - 2) :=
  rotation_roundtrip 4 4 1 2 9 (by decide) (by decide) (by decide) (by decide)

/--
  C3 fails on the code: GFXcanvas8::writeFastHLine applies the rotation
  transform to the single start point and then memsets w consecutive bytes
  of the raw row-major buffer, but under rotation 1 (and 3) a logical
  horizontal span is a vertical run in the raw buffer, and under rotation 2
  the run extends to the wrong side.  On a 4×4 canvas at rotation 1,
  writeFastHLine(0, 0, 2, 5) fills raw bytes 3 and 4 (raw coordinates
  (3,0) and (0,1)), while two drawPixel calls at (0,0) and (1,0) fill raw
  bytes 3 and 7 (raw (3,0) and (3,1)): the fast path writes a different
  pixel set than the per-pixel reference it must agree with, with no
  fallback.
-/
theorem canvas8_hline_rotation_bug :
    ((GFXcanvas8.init 4 4).setRotation 1).writeFastHLine 0 0 2 5 ≠
      ((GFXcanvas8.init 4 4).setRotation 1).drawPixelRun 0 0 5 2 ∧
    (((GFXcanvas8.init 4 4).setRotation 1).writeFastHLine 0 0 2 5).buffer =
      some [0, 0, 0, 5, 5, 0, 0, 0, 0, 0, 0, 0, 0, 0, 0, 0] ∧
    (((GFXcanvas8.init 4 4).setRotation 1).drawPixelRun 0 0 5 2).buffer =
      some [0, 0, 0, 5, 0, 0, 0, 5, 0, 0, 0, 0, 0, 0, 0, 0] :=
  ⟨by decide, by decide, by decide⟩
